import Mathlib

/-!
# SpriteSheetExporter: extraction of packed sprites from an atlas

Shallow embedding of `Source/SpriteSheetExporter/Private/SpriteSheetExporter.cpp`
(`ExportPNG`, `TrimSprite`, `ExportAtlas`, `ExportAllAtlas`).

Conventions of the embedding.

* `TArray64<uint8>` is a `List uint8`.
* `int32` values are integers; every `int32` operation of the source is followed by
  `wrap32`, the reduction to the two's complement range `[-2^31, 2^31)`: a signed overflow
  gets the value the compiled code computes.
* `head + Offset` followed by `out.Append(_, Count)` is a bounds-checked read of the bytes
  `[Offset, Offset + Count)` of the buffer behind `head`; a read that leaves the buffer (or a
  negative count) has no defined result and is `none`.
* `FVector2D` carries the components after the conversion to `int32` done on lines 49-50 of
  the source (`const int32 w = Size.X`), so the floating point part stays outside.
* `ExportPNG` returns nothing in the source; the embedding returns the record of the call
  (its arguments, and which of its two branches ran), and `ExportAtlas` / `ExportAllAtlas`
  return their boolean together with the records of the `ExportPNG` calls they made, in order.
* A `TrimSprite` read that leaves the buffer ends the run: `ExportAtlas` and `ExportAllAtlas`
  then return nothing at all, and are `none`.
-/

set_option linter.unusedVariables false

namespace SpriteSheetExporter

/-! ## Data model -/

abbrev uint8 := UInt8

/-- Reduction of an integer to the `int32` range, two's complement. -/
def wrap32 (z : Int) : Int := (z + 2147483648) % 4294967296 - 2147483648

/-- The `int32` addition `a + b`. -/
def add32 (a b : Int) : Int := wrap32 (a + b)

/-- The `int32` subtraction `a - b`. -/
def sub32 (a b : Int) : Int := wrap32 (a - b)

/-- The `int32` multiplication `a * b`. -/
def mul32 (a b : Int) : Int := wrap32 (a * b)

/-- The two components of an `FVector2D`, already converted to `int32`. -/
structure FVector2D where
  X : Int
  Y : Int
deriving DecidableEq, Repr

/-- The call `out.Append(head + Offset, Count)` where `head = RawData.GetData()`: the bytes
`[Offset, Offset + Count)` of `RawData` are appended to `out`. -/
def TArray64.Append (out RawData : List uint8) (Offset Count : Int) : Option (List uint8) :=
  if 0 ≤ Offset ∧ 0 ≤ Count ∧ Offset + Count ≤ RawData.length then
    some (out ++ (RawData.drop Offset.toNat).take Count.toNat)
  else none

/-- Type `FTextureSource`: what `ExportAtlas` asks of `tex->Source`. `MipData` is the buffer
`GetMipData(RawData, 0)` fills, `none` when that call returns false; `BytesPerPixel` is
`FTextureSource::GetBytesPerPixel(GetFormat())`. -/
structure FTextureSource where
  MipData : Option (List uint8)
  SizeX : Int
  SizeY : Int
  BytesPerPixel : Int

structure UTexture2D where
  Source : FTextureSource
  FName : String

/-- Type `UPaperSprite`, already loaded: `GetSourceUV()`, `GetSourceSize()`,
`IsRotatedInSourceImage()` and `GetFName().ToString()`. -/
structure UPaperSprite where
  SourceUV : FVector2D
  SourceSize : FVector2D
  bRotatedInSourceImage : Bool
  FName : String

structure UPaperSpriteSheet where
  Texture : UTexture2D
  TextureName : String
  Sprites : List UPaperSprite

/-- The engine services the exporter calls: `FPaths::ValidatePath` (true when it leaves
`PathError` empty) and `FPaths::Combine`. -/
structure Engine where
  ValidatePath : String → Bool
  Combine : String → String → String

/-- The branch an `ExportPNG` call took: the early return of line 27 after the warning, or the
encode and write of lines 30-42. -/
inductive PNGOutcome where
  | InvalidPath
  | Saved
deriving DecidableEq, Repr

/-- One call of `ExportPNG`: its four arguments and the branch it took. -/
structure PNGExport where
  TotalFileName : String
  RawData : List uint8
  width : Int
  height : Int
  outcome : PNGOutcome
deriving DecidableEq

/-! ## The functions of `SpriteSheetExporter.cpp` -/

/-- The function `ExportPNG` (lines 20-43): the path is validated first, and an invalid path
ends the call after a warning, before anything is encoded or written. -/
def ExportPNG (E : Engine) (TotalFileName : String) (RawData : List uint8)
    (width height : Int) : PNGExport :=
  if E.ValidatePath TotalFileName then
    { TotalFileName := TotalFileName, RawData := RawData, width := width, height := height,
      outcome := PNGOutcome.Saved }
  else
    { TotalFileName := TotalFileName, RawData := RawData, width := width, height := height,
      outcome := PNGOutcome.InvalidPath }

/-- The function `TrimSprite` (lines 47-68). The call `out.Reserve` only sets the capacity of
`out` and is left out. -/
def TrimSprite (RawData : List uint8) (Width Height : Int) (UV Size : FVector2D)
    (Span : Int) (bRotated : Bool) (out : List uint8) : Option (List uint8) :=
  let w := Size.X
  let h := Size.Y
  let x := UV.X
  let y := UV.Y
  if bRotated then
    (List.range w.toNat).foldlM (fun out (i : Nat) =>
      (List.range h.toNat).foldlM (fun out (j : Nat) =>
        TArray64.Append out RawData
          (mul32 Span (sub32 (sub32 (add32 (add32 (mul32 (add32 y j) Width) x) w) i) 1))
          Span) out) out
  else
    (List.range h.toNat).foldlM (fun out (i : Nat) =>
      TArray64.Append out RawData
        (mul32 (add32 (mul32 (add32 y i) Width) x) Span) (mul32 w Span)) out

/-- The `(Offset, Count)` arguments of the `out.Append(head + Offset, Count)` calls of
`TrimSprite`, in program order: the byte ranges it reads. -/
def TrimSpriteReads (Width : Int) (UV Size : FVector2D) (Span : Int) (bRotated : Bool) :
    List (Int × Int) :=
  let w := Size.X
  let h := Size.Y
  let x := UV.X
  let y := UV.Y
  if bRotated then
    (List.range w.toNat).flatMap (fun (i : Nat) =>
      (List.range h.toNat).map (fun (j : Nat) =>
        (mul32 Span (sub32 (sub32 (add32 (add32 (mul32 (add32 y j) Width) x) w) i) 1), Span)))
  else
    (List.range h.toNat).map (fun (i : Nat) =>
      (mul32 (add32 (mul32 (add32 y i) Width) x) Span, mul32 w Span))

/-- The function `ExportAtlas` (lines 72-104). A sprite whose `TrimSprite` reads leave the
buffer ends the run there: the function does not return, and the result is `none`. -/
def ExportAtlas (E : Engine) (sprite_sheet : UPaperSpriteSheet) (exportPath : String) :
    Option (Bool × List PNGExport) :=
  let tex := sprite_sheet.Texture
  match tex.Source.MipData with
  | none => some (false, [])
  | some RawData =>
    let TotalFileName := E.Combine exportPath tex.FName ++ "/"
    let texture := ExportPNG E (TotalFileName ++ sprite_sheet.TextureName) RawData
      tex.Source.SizeX tex.Source.SizeY
    let calls := sprite_sheet.Sprites.foldlM (fun calls sprite =>
      match TrimSprite RawData tex.Source.SizeX tex.Source.SizeY
        sprite.SourceUV sprite.SourceSize tex.Source.BytesPerPixel
        sprite.bRotatedInSourceImage [] with
      | none => none
      | some spriteData =>
        if sprite.bRotatedInSourceImage then
          some (calls ++ [ExportPNG E (TotalFileName ++ sprite.FName ++ ".png") spriteData
            sprite.SourceSize.Y sprite.SourceSize.X])
        else
          some (calls ++ [ExportPNG E (TotalFileName ++ sprite.FName ++ ".png") spriteData
            sprite.SourceSize.X sprite.SourceSize.Y])) [texture]
    match calls with
    | none => none
    | some calls => some (true, calls)

/-- The function `ExportAllAtlas` (lines 108-132), on the sprite sheets the asset registry
returned for the filter of lines 117-123. An `ExportAtlas` call that does not return ends the
run, and the result is `none`. -/
def ExportAllAtlas (E : Engine) (sprite_sheets : List UPaperSpriteSheet) (exportPath : String) :
    Option (Bool × List PNGExport) :=
  sprite_sheets.foldlM (fun acc asset =>
    match ExportAtlas E asset exportPath with
    | none => none
    | some r => some (acc.1 && r.1, acc.2 ++ r.2)) (true, [])

/-! ## The statements of the specification -/

/-- The region with origin `(x, y)` and size `(w, h)` lies inside the `Width` by `Height` atlas
stored in `RawData` with `Span > 0` bytes per pixel. -/
def ValidRegion (RawData : List uint8) (Width Height x y w h Span : Int) : Prop :=
  (RawData.length : Int) = Width * Height * Span ∧ 0 < Span ∧ 0 ≤ x ∧ 0 ≤ y ∧ 0 ≤ w ∧ 0 ≤ h
    ∧ x + w ≤ Width ∧ y + h ≤ Height

/-- Unrotated extraction equals the sub-rectangle: `TrimSprite` with `bRotated = false` on an
empty `out` produces a buffer whose byte `(i*w + c)*Span + b` is the atlas byte
`((y + i)*Width + x + c)*Span + b`, for every row `i < h`, column `c < w`, byte `b < Span`. -/
def UnrotatedSubrect (RawData : List uint8) (Width Height x y w h Span : Int) : Prop :=
  ∃ out, TrimSprite RawData Width Height ⟨x, y⟩ ⟨w, h⟩ Span false [] = some out ∧
    ∀ i c b : Nat, (i : Int) < h → (c : Int) < w → (b : Int) < Span →
      ∃ v, out[((i * w + c) * Span + b).toNat]? = some v
        ∧ RawData[(((y + i) * Width + x + c) * Span + b).toNat]? = some v

/-- Rotated extraction is the column-reversal read: `TrimSprite` with `bRotated = true` on an
empty `out` produces a buffer whose pixel `i*h + j` is the atlas pixel at row `y + j`, column
`x + w - i - 1`, byte by byte, for every `i < w` and `j < h`. -/
def RotatedColumnReversal (RawData : List uint8) (Width Height x y w h Span : Int) : Prop :=
  ∃ out, TrimSprite RawData Width Height ⟨x, y⟩ ⟨w, h⟩ Span true [] = some out ∧
    ∀ i j b : Nat, (i : Int) < w → (j : Int) < h → (b : Int) < Span →
      ∃ v, out[((i * h + j) * Span + b).toNat]? = some v
        ∧ RawData[(((y + j) * Width + x + w - i - 1) * Span + b).toNat]? = some v

/-- The inverse transform of the rotated read, in the words of the specification: pixel number
`(w - 1 - c) * h + j` of `R` is placed at row `j`, column `c` of a `w` wide, `h` high
row-major image with `Span` bytes per pixel. -/
def inverseRotate (R : List uint8) (w h Span : Nat) : List uint8 :=
  (List.range h).flatMap (fun j =>
    (List.range w).flatMap (fun c =>
      (R.drop (((w - 1 - c) * h + j) * Span)).take Span))

/-- Round trip: the inverse transform of the rotated extraction is the unrotated extraction of
the same region. -/
def RotatedRoundTrip (RawData : List uint8) (Width Height x y w h Span : Int) : Prop :=
  ∃ R U, TrimSprite RawData Width Height ⟨x, y⟩ ⟨w, h⟩ Span true [] = some R
    ∧ TrimSprite RawData Width Height ⟨x, y⟩ ⟨w, h⟩ Span false [] = some U
    ∧ inverseRotate R w.toNat h.toNat Span.toNat = U

/-- In both modes `TrimSprite` on an empty `out` produces a buffer of `w*h*Span` bytes. -/
def ExtractedLength (RawData : List uint8) (Width Height x y w h Span : Int) : Prop :=
  ∀ bRotated : Bool, ∃ out,
    TrimSprite RawData Width Height ⟨x, y⟩ ⟨w, h⟩ Span bRotated [] = some out
      ∧ (out.length : Int) = w * h * Span

/-- The reads of `TrimSprite` are the ranges the specification names (`w*Span` bytes from
`((y + i)*Width + x)*Span` for `i < h` when unrotated, `Span` bytes from
`Span*((y + j)*Width + x + w - i - 1)` for `i < w`, `j < h` when rotated), each of them lies in
`[0, Width*Height*Span)`, and the bounds-checked `TrimSprite` does not fail. -/
def ReadsInBounds (RawData : List uint8) (Width Height x y w h Span : Int) : Prop :=
  TrimSpriteReads Width ⟨x, y⟩ ⟨w, h⟩ Span false
      = (List.range h.toNat).map (fun (i : Nat) => (((y + i) * Width + x) * Span, w * Span))
    ∧ TrimSpriteReads Width ⟨x, y⟩ ⟨w, h⟩ Span true
      = (List.range w.toNat).flatMap (fun (i : Nat) => (List.range h.toNat).map (fun (j : Nat) =>
          (Span * ((y + j) * Width + x + w - i - 1), Span)))
    ∧ ∀ bRotated : Bool,
      (∀ r ∈ TrimSpriteReads Width ⟨x, y⟩ ⟨w, h⟩ Span bRotated,
        0 ≤ r.1 ∧ 0 ≤ r.2 ∧ r.1 + r.2 ≤ Width * Height * Span)
      ∧ TrimSprite RawData Width Height ⟨x, y⟩ ⟨w, h⟩ Span bRotated [] ≠ none

/-- No sprite of the sheet makes `TrimSprite` read outside the buffer `GetMipData` returned
(nothing to check when there is no such buffer). -/
def Extractable (sprite_sheet : UPaperSpriteSheet) : Bool :=
  match sprite_sheet.Texture.Source.MipData with
  | none => true
  | some RawData =>
    sprite_sheet.Sprites.all (fun sprite =>
      (TrimSprite RawData sprite_sheet.Texture.Source.SizeX sprite_sheet.Texture.Source.SizeY
        sprite.SourceUV sprite.SourceSize sprite_sheet.Texture.Source.BytesPerPixel
        sprite.bRotatedInSourceImage []).isSome)

/-- Declared dimensions: `ExportAtlas` returns, and its `ExportPNG` call number `k + 1` (call 0
is the atlas image) has the buffer `TrimSprite` extracted for `sprite`, with declared
`(width, height) = (w, h)` when the sprite is not rotated and `(h, w)` when it is. -/
def HandsOverSprite (E : Engine) (sprite_sheet : UPaperSpriteSheet) (exportPath : String)
    (RawData : List uint8) (k : Nat) (sprite : UPaperSprite) : Prop :=
  ∃ b calls r, ExportAtlas E sprite_sheet exportPath = some (b, calls)
    ∧ calls[k + 1]? = some r
    ∧ TrimSprite RawData sprite_sheet.Texture.Source.SizeX sprite_sheet.Texture.Source.SizeY
        sprite.SourceUV sprite.SourceSize sprite_sheet.Texture.Source.BytesPerPixel
        sprite.bRotatedInSourceImage [] = some r.RawData
    ∧ (sprite.bRotatedInSourceImage = false →
        r.width = sprite.SourceSize.X ∧ r.height = sprite.SourceSize.Y)
    ∧ (sprite.bRotatedInSourceImage = true →
        r.width = sprite.SourceSize.Y ∧ r.height = sprite.SourceSize.X)

/-- Success only if every step succeeded: when `ExportAtlas` returns true, the source was
available and every `ExportPNG` call went through to the encode and write. -/
def SuccessOnlyIfAllSucceeded (E : Engine) (sprite_sheet : UPaperSpriteSheet)
    (exportPath : String) : Prop :=
  ∀ calls, ExportAtlas E sprite_sheet exportPath = some (true, calls) →
    sprite_sheet.Texture.Source.MipData ≠ none
      ∧ ∀ r ∈ calls, r.outcome = PNGOutcome.Saved

/-- Non-short-circuit AND: `ExportAtlas` returns on each atlas, `ExportAllAtlas` returns, its
`ExportPNG` calls are those of the atlases in order, and its result is true if and only if
the result of every atlas is. -/
def NonShortCircuitAnd (E : Engine) (sprite_sheets : List UPaperSpriteSheet)
    (exportPath : String) : Prop :=
  ∃ results : List (Bool × List PNGExport),
    sprite_sheets.map (fun s => ExportAtlas E s exportPath) = results.map some
      ∧ ∃ b, ExportAllAtlas E sprite_sheets exportPath = some (b, results.flatMap (fun r => r.2))
        ∧ (b = true ↔ ∀ r ∈ results, r.1 = true)

/-! ## Auxiliary definitions and sample inputs -/

/-- Row `i` of the region, as the unrotated loop reads it from the atlas. -/
def rowBlock (RawData : List uint8) (W S x y w : Nat) (i : Nat) : List uint8 :=
  (RawData.drop (((y + i) * W + x) * S)).take (w * S)

/-- The pixel the rotated loop reads for `(i, j)`. -/
def rotatedPixel (RawData : List uint8) (W S x y w : Nat) (i j : Nat) : List uint8 :=
  (RawData.drop (S * ((y + j) * W + x + w - i - 1))).take S

/-- The `ExportPNG` call `ExportAtlas` makes for one sprite (lines 91-99), when the
extraction of the sprite has a result. -/
def spriteExport (E : Engine) (RawData : List uint8) (tex : UTexture2D) (TotalFileName : String)
    (sprite : UPaperSprite) : PNGExport :=
  ExportPNG E (TotalFileName ++ sprite.FName ++ ".png")
    ((TrimSprite RawData tex.Source.SizeX tex.Source.SizeY sprite.SourceUV sprite.SourceSize
      tex.Source.BytesPerPixel sprite.bRotatedInSourceImage []).getD [])
    (if sprite.bRotatedInSourceImage then sprite.SourceSize.Y else sprite.SourceSize.X)
    (if sprite.bRotatedInSourceImage then sprite.SourceSize.X else sprite.SourceSize.Y)

/-- The atlas of the specification's scenario: 4 by 2 pixels, one byte per pixel. -/
def atlas4x2 : List uint8 := [1, 2, 3, 4, 5, 6, 7, 8]

/-- A 32768 by 32768 atlas with four bytes per pixel: `2^32` bytes. -/
def hugeAtlas : List uint8 := List.replicate 4294967296 0

/-- An engine whose path validation rejects the character `?`. -/
def sampleEngine : Engine :=
  { ValidatePath := fun p => !p.toList.contains '?'
    Combine := fun a b => a ++ "/" ++ b }

/-- A 4 by 2 sprite sheet with a rotated and an unrotated sprite of size `(2, 1)`. -/
def sampleSheet (MipData : Option (List uint8)) (name : String) : UPaperSpriteSheet :=
  { Texture := { Source := { MipData := MipData, SizeX := 4, SizeY := 2, BytesPerPixel := 1 },
                 FName := name }
    TextureName := name ++ ".png"
    Sprites := [{ SourceUV := ⟨1, 0⟩, SourceSize := ⟨2, 1⟩, bRotatedInSourceImage := true,
                  FName := "a" },
                { SourceUV := ⟨1, 0⟩, SourceSize := ⟨2, 1⟩, bRotatedInSourceImage := false,
                  FName := "b" }] }

/-- A sprite sheet with an available source and no sprite. -/
def emptySheet : UPaperSpriteSheet :=
  { Texture := { Source := { MipData := some atlas4x2, SizeX := 4, SizeY := 2,
                             BytesPerPixel := 1 },
                 FName := "T" }
    TextureName := "T.png"
    Sprites := [] }

/-- The one-pixel sprite at `(0, 16384)`. -/
def hugeSprite : UPaperSprite :=
  { SourceUV := ⟨0, 16384⟩, SourceSize := ⟨1, 1⟩, bRotatedInSourceImage := false, FName := "a" }

/-- A sprite sheet on the 32768 by 32768 atlas of four bytes per pixel, with the one-pixel
sprite at `(0, 16384)` followed by a one-pixel sprite at `(0, 0)`. -/
def hugeSheet : UPaperSpriteSheet :=
  { Texture := { Source := { MipData := some hugeAtlas, SizeX := 32768, SizeY := 32768,
                             BytesPerPixel := 4 },
                 FName := "H" }
    TextureName := "H.png"
    Sprites := [hugeSprite,
                { SourceUV := ⟨0, 0⟩, SourceSize := ⟨1, 1⟩, bRotatedInSourceImage := false,
                  FName := "b" }] }

/-! ## Auxiliary facts: `int32` arithmetic, lists, loops -/

theorem wrap32_eq_self {z : Int} (h0 : 0 ≤ z) (h1 : z ≤ 2147483647) : wrap32 z = z := by
  unfold wrap32; omega

theorem wrap32_zero : wrap32 0 = 0 := by decide

/-- A loop over `0 .. n-1` whose body appends the block `g i` to the accumulator yields the
accumulator followed by the blocks in order. -/
theorem foldlM_range_append {α : Type} (g : Nat → List α) (f : List α → Nat → Option (List α))
    (n : Nat) (hf : ∀ out i, i < n → f out i = some (out ++ g i)) (out : List α) :
    (List.range n).foldlM f out = some (out ++ (List.range n).flatMap g) := by
  induction n generalizing out with
  | zero => simp
  | succ n ih =>
    rw [List.range_succ, List.foldlM_append, ih (fun o i hi => hf o i (Nat.lt_succ_of_lt hi))]
    simp [hf _ n (Nat.lt_succ_self n), List.flatMap_append]

theorem length_flatMap_range {α : Type} (g : Nat → List α) (m n : Nat)
    (hg : ∀ i, i < n → (g i).length = m) : ((List.range n).flatMap g).length = n * m := by
  induction n with
  | zero => simp
  | succ n ih =>
    rw [List.range_succ, List.flatMap_append, List.length_append,
      ih (fun i hi => hg i (Nat.lt_succ_of_lt hi))]
    simp [hg n (Nat.lt_succ_self n), Nat.succ_mul]

/-- Indexing into a concatenation of `n` blocks of the same length `m`. -/
theorem getElem?_flatMap_range {α : Type} (g : Nat → List α) (m n : Nat)
    (hg : ∀ i, i < n → (g i).length = m) (i r : Nat) (hi : i < n) (hr : r < m) :
    ((List.range n).flatMap g)[i * m + r]? = (g i)[r]? := by
  induction n with
  | zero => omega
  | succ n ih =>
    have hlen := length_flatMap_range g m n (fun i hi => hg i (Nat.lt_succ_of_lt hi))
    rw [List.range_succ, List.flatMap_append]
    rcases Nat.lt_succ_iff_lt_or_eq.mp hi with h | h
    · have hlt : i * m + r < n * m := by
        calc i * m + r < i * m + m := by omega
          _ = (i + 1) * m := by ring
          _ ≤ n * m := Nat.mul_le_mul_right m h
      rw [List.getElem?_append_left (by rw [hlen]; exact hlt)]
      exact ih (fun i hi => hg i (Nat.lt_succ_of_lt hi)) h
    · subst h
      rw [List.getElem?_append_right (by rw [hlen]; omega), hlen]
      simp

theorem getElem?_take_drop {α : Type} (L : List α) (s m r : Nat) (hr : r < m) :
    ((L.drop s).take m)[r]? = L[s + r]? := by
  rw [List.getElem?_take, if_pos hr, List.getElem?_drop]

theorem length_take_drop {α : Type} (L : List α) (s m : Nat) (h : s + m ≤ L.length) :
    ((L.drop s).take m).length = m := by
  simp; omega

theorem add32_natCast (a b : Nat) (h : a + b ≤ 2147483647) :
    add32 (a : Int) (b : Int) = ((a + b : Nat) : Int) := by
  unfold add32
  rw [wrap32_eq_self] <;> push_cast <;> omega

theorem sub32_natCast (a b : Nat) (hba : b ≤ a) (h : a ≤ 2147483647) :
    sub32 (a : Int) (b : Int) = ((a - b : Nat) : Int) := by
  unfold sub32
  rw [wrap32_eq_self] <;> omega

theorem mul32_natCast (a b : Nat) (h : a * b ≤ 2147483647) :
    mul32 (a : Int) (b : Int) = ((a * b : Nat) : Int) := by
  unfold mul32
  have h' : ((a * b : Nat) : Int) ≤ 2147483647 := by exact_mod_cast h
  rw [wrap32_eq_self] <;> push_cast at * <;> first | rfl | positivity | exact h'

/-- The offset and count of the unrotated loop body, when nothing overflows. -/
theorem unrotated_offset (W H S x y w h i : Nat) (hS : 0 < S) (hxw : x + w ≤ W)
    (hyh : y + h ≤ H) (hfit : W * H * S ≤ 2147483647) (hi : i < h) :
    mul32 (add32 (mul32 (add32 (y : Int) (i : Int)) W) x) S = ((((y + i) * W + x) * S : Nat) : Int)
      ∧ mul32 (w : Int) (S : Int) = ((w * S : Nat) : Int)
      ∧ ((y + i) * W + x) * S + w * S ≤ W * H * S := by
  have h1 : (y + i + 1) * W ≤ H * W := Nat.mul_le_mul_right W (by omega)
  have h2 : (y + i) * W + x + w ≤ W * H := by
    have e : (y + i + 1) * W = (y + i) * W + W := by ring
    rw [Nat.mul_comm W H]; omega
  have h3 : ((y + i) * W + x + w) * S ≤ W * H * S := Nat.mul_le_mul_right S h2
  have h4 : ((y + i) * W + x + w) * S = ((y + i) * W + x) * S + w * S := by ring
  refine ⟨?_, ?_, by omega⟩
  · rcases Nat.eq_zero_or_pos W with hW | hW
    · subst hW
      have hx : x = 0 := by omega
      subst hx
      simp [mul32, add32, wrap32_zero]
    · have b1 : y + i ≤ (y + i) * W := Nat.le_mul_of_pos_right _ hW
      have b2 : (y + i) * W + x ≤ ((y + i) * W + x) * S := Nat.le_mul_of_pos_right _ hS
      rw [add32_natCast y i (by omega), mul32_natCast _ W (by omega),
        add32_natCast _ x (by omega), mul32_natCast _ S (by omega)]
  · exact mul32_natCast w S (by omega)

/-- The offset of the rotated loop body, when nothing overflows. -/
theorem rotated_offset (W H S x y w h i j : Nat) (hS : 0 < S) (hxw : x + w ≤ W)
    (hyh : y + h ≤ H) (hfit : W * H * S ≤ 2147483647) (hi : i < w) (hj : j < h) :
    mul32 (S : Int) (sub32 (sub32 (add32 (add32 (mul32 (add32 (y : Int) (j : Int)) W) x) w) i) 1)
        = ((S * ((y + j) * W + x + w - i - 1) : Nat) : Int)
      ∧ S * ((y + j) * W + x + w - i - 1) + S ≤ W * H * S := by
  have hW : 0 < W := by omega
  have h1 : (y + j + 1) * W ≤ H * W := Nat.mul_le_mul_right W (by omega)
  have h2 : (y + j) * W + x + w ≤ W * H := by
    have e : (y + j + 1) * W = (y + j) * W + W := by ring
    rw [Nat.mul_comm W H]; omega
  have h3 : ((y + j) * W + x + w) * S ≤ W * H * S := Nat.mul_le_mul_right S h2
  have b1 : y + j ≤ (y + j) * W := Nat.le_mul_of_pos_right _ hW
  have b2 : (y + j) * W + x + w ≤ ((y + j) * W + x + w) * S := Nat.le_mul_of_pos_right _ hS
  have h5 : S * ((y + j) * W + x + w - i - 1) + S = S * ((y + j) * W + x + w - i) := by
    have : (y + j) * W + x + w - i = ((y + j) * W + x + w - i - 1) + 1 := by omega
    rw [this]; simp; ring
  have h6 : S * ((y + j) * W + x + w - i) ≤ ((y + j) * W + x + w) * S := by
    rw [Nat.mul_comm]; exact Nat.mul_le_mul_right S (Nat.sub_le _ _)
  have h7 : S * ((y + j) * W + x + w - i - 1) ≤ S * ((y + j) * W + x + w - i) := by omega
  refine ⟨?_, by omega⟩
  have one : (1 : Int) = ((1 : Nat) : Int) := rfl
  rw [one, add32_natCast y j (by omega), mul32_natCast _ W (by omega),
    add32_natCast _ x (by omega), add32_natCast _ w (by omega),
    sub32_natCast _ i (by omega) (by omega), sub32_natCast _ 1 (by omega) (by omega),
    mul32_natCast S _ (by omega)]

theorem Append_natCast (out RawData : List uint8) (s m : Nat) (h : s + m ≤ RawData.length) :
    TArray64.Append out RawData (s : Int) (m : Int) = some (out ++ (RawData.drop s).take m) := by
  unfold TArray64.Append
  rw [if_pos ⟨by omega, by omega, by omega⟩]
  simp

theorem TrimSprite_unrotated_eq (RawData : List uint8) (W H S x y w h : Nat)
    (hlen : RawData.length = W * H * S) (hS : 0 < S) (hxw : x + w ≤ W) (hyh : y + h ≤ H)
    (hfit : W * H * S ≤ 2147483647) (out : List uint8) :
    TrimSprite RawData W H ⟨x, y⟩ ⟨w, h⟩ S false out
      = some (out ++ (List.range h).flatMap (rowBlock RawData W S x y w)) := by
  unfold TrimSprite
  simp only [Bool.false_eq_true, if_false, Int.toNat_ofNat]
  apply foldlM_range_append
  intro o i hi
  obtain ⟨e1, e2, hb⟩ := unrotated_offset W H S x y w h i hS hxw hyh hfit hi
  rw [e1, e2, Append_natCast _ _ _ _ (by omega)]
  rfl

theorem TrimSprite_rotated_eq (RawData : List uint8) (W H S x y w h : Nat)
    (hlen : RawData.length = W * H * S) (hS : 0 < S) (hxw : x + w ≤ W) (hyh : y + h ≤ H)
    (hfit : W * H * S ≤ 2147483647) (out : List uint8) :
    TrimSprite RawData W H ⟨x, y⟩ ⟨w, h⟩ S true out
      = some (out ++ (List.range w).flatMap (fun i =>
          (List.range h).flatMap (rotatedPixel RawData W S x y w i))) := by
  unfold TrimSprite
  simp only [if_true, Int.toNat_ofNat]
  apply foldlM_range_append
  intro o i hi
  apply foldlM_range_append
  intro o2 j hj
  obtain ⟨e1, hb⟩ := rotated_offset W H S x y w h i j hS hxw hyh hfit hi hj
  rw [e1, Append_natCast _ _ _ _ (by omega)]
  rfl

theorem length_rowBlock (RawData : List uint8) (W H S x y w h : Nat)
    (hlen : RawData.length = W * H * S) (hxw : x + w ≤ W) (hyh : y + h ≤ H)
    (i : Nat) (hi : i < h) : (rowBlock RawData W S x y w i).length = w * S := by
  have h1 : (y + i + 1) * W ≤ H * W := Nat.mul_le_mul_right W (by omega)
  have h2 : (y + i) * W + x + w ≤ W * H := by
    have e : (y + i + 1) * W = (y + i) * W + W := by ring
    rw [Nat.mul_comm W H]; omega
  have h3 : ((y + i) * W + x + w) * S ≤ W * H * S := Nat.mul_le_mul_right S h2
  have h4 : ((y + i) * W + x + w) * S = ((y + i) * W + x) * S + w * S := by ring
  exact length_take_drop _ _ _ (by omega)

theorem rotated_in_bounds (W H S x y w h i j : Nat) (hxw : x + w ≤ W) (hyh : y + h ≤ H)
    (hi : i < w) (hj : j < h) : S * ((y + j) * W + x + w - i - 1) + S ≤ W * H * S := by
  have h1 : (y + j + 1) * W ≤ H * W := Nat.mul_le_mul_right W (by omega)
  have h2 : (y + j) * W + x + w ≤ W * H := by
    have e : (y + j + 1) * W = (y + j) * W + W := by ring
    rw [Nat.mul_comm W H]; omega
  have h3 : ((y + j) * W + x + w - i - 1 + 1) * S ≤ W * H * S :=
    Nat.mul_le_mul_right S (by omega)
  have h4 : ((y + j) * W + x + w - i - 1 + 1) * S
      = S * ((y + j) * W + x + w - i - 1) + S := by ring
  omega

theorem length_rotatedPixel (RawData : List uint8) (W H S x y w h : Nat)
    (hlen : RawData.length = W * H * S) (hxw : x + w ≤ W) (hyh : y + h ≤ H)
    (i j : Nat) (hi : i < w) (hj : j < h) : (rotatedPixel RawData W S x y w i j).length = S := by
  have := rotated_in_bounds W H S x y w h i j hxw hyh hi hj
  exact length_take_drop _ _ _ (by omega)

/-- Byte `(i*w + c)*S + b` of the unrotated rows is atlas byte `((y+i)*W + x + c)*S + b`. -/
theorem getElem?_rows (RawData : List uint8) (W H S x y w h : Nat)
    (hlen : RawData.length = W * H * S) (hxw : x + w ≤ W) (hyh : y + h ≤ H)
    (i c b : Nat) (hi : i < h) (hc : c < w) (hb : b < S) :
    ∃ v, ((List.range h).flatMap (rowBlock RawData W S x y w))[(i * w + c) * S + b]? = some v
      ∧ RawData[((y + i) * W + x + c) * S + b]? = some v := by
  have hr : c * S + b < w * S := by
    calc c * S + b < c * S + S := by omega
      _ = (c + 1) * S := by ring
      _ ≤ w * S := Nat.mul_le_mul_right S hc
  have e1 : (i * w + c) * S + b = i * (w * S) + (c * S + b) := by ring
  have e2 : ((y + i) * W + x + c) * S + b = ((y + i) * W + x) * S + (c * S + b) := by ring
  have hl := length_rowBlock RawData W H S x y w h hlen hxw hyh i hi
  have hin : ((y + i) * W + x) * S + (c * S + b) < RawData.length := by
    unfold rowBlock at hl
    simp at hl
    omega
  rw [e1, getElem?_flatMap_range _ (w * S) h
    (fun k hk => length_rowBlock RawData W H S x y w h hlen hxw hyh k hk) i _ hi hr, e2]
  unfold rowBlock
  rw [getElem?_take_drop _ _ _ _ hr]
  exact ⟨RawData[((y + i) * W + x) * S + (c * S + b)], by simp [hin], by simp [hin]⟩

/-- Byte `b` of pixel `i*h + j` of the rotated output is byte `b` of the atlas pixel at row
`y + j`, column `x + w - i - 1`. -/
theorem getElem?_rotated (RawData : List uint8) (W H S x y w h : Nat)
    (hlen : RawData.length = W * H * S) (hxw : x + w ≤ W) (hyh : y + h ≤ H)
    (i j b : Nat) (hi : i < w) (hj : j < h) (hb : b < S) :
    ∃ v, ((List.range w).flatMap (fun i =>
          (List.range h).flatMap (rotatedPixel RawData W S x y w i)))[(i * h + j) * S + b]? = some v
      ∧ RawData[((y + j) * W + x + w - i - 1) * S + b]? = some v := by
  have hr : j * S + b < h * S := by
    calc j * S + b < j * S + S := by omega
      _ = (j + 1) * S := by ring
      _ ≤ h * S := Nat.mul_le_mul_right S hj
  have e1 : (i * h + j) * S + b = i * (h * S) + (j * S + b) := by ring
  have e2 : ((y + j) * W + x + w - i - 1) * S + b = S * ((y + j) * W + x + w - i - 1) + b := by
    rw [Nat.mul_comm]
  have hin := rotated_in_bounds W H S x y w h i j hxw hyh hi hj
  rw [e1, getElem?_flatMap_range _ (h * S) w
    (fun k hk => length_flatMap_range _ S h
      (fun l hl => length_rotatedPixel RawData W H S x y w h hlen hxw hyh k l hk hl)) i _ hi hr,
    getElem?_flatMap_range _ S h
      (fun l hl => length_rotatedPixel RawData W H S x y w h hlen hxw hyh i l hi hl) j b hj hb,
    e2]
  unfold rotatedPixel
  rw [getElem?_take_drop _ _ _ _ hb]
  have hlt : S * ((y + j) * W + x + w - i - 1) + b < RawData.length := by omega
  exact ⟨RawData[S * ((y + j) * W + x + w - i - 1) + b], by simp [hlt], by simp [hlt]⟩

theorem ValidRegion.toNat {RawData : List uint8} {Width Height x y w h Span : Int}
    (hv : ValidRegion RawData Width Height x y w h Span) :
    ∃ W H S x' y' w' h' : Nat, Width = W ∧ Height = H ∧ Span = S ∧ x = x' ∧ y = y' ∧ w = w'
      ∧ h = h' ∧ RawData.length = W * H * S ∧ 0 < S ∧ x' + w' ≤ W ∧ y' + h' ≤ H := by
  obtain ⟨hlen, hS, hx, hy, hw, hh, hxw, hyh⟩ := hv
  lift x to ℕ using hx
  lift y to ℕ using hy
  lift w to ℕ using hw
  lift h to ℕ using hh
  lift Span to ℕ using hS.le
  lift Width to ℕ using (by omega)
  lift Height to ℕ using (by omega)
  exact ⟨Width, Height, Span, x, y, w, h, rfl, rfl, rfl, rfl, rfl, rfl, rfl,
    by exact_mod_cast hlen, by exact_mod_cast hS, by exact_mod_cast hxw, by exact_mod_cast hyh⟩

theorem index_decompose (h w S k : Nat) (hk : k < h * (w * S)) :
    ∃ j c b, j < h ∧ c < w ∧ b < S ∧ k = (j * w + c) * S + b := by
  have hS : 0 < S := by
    rcases Nat.eq_zero_or_pos S with h0 | h0
    · subst h0; simp at hk
    · exact h0
  have hw : 0 < w := by
    rcases Nat.eq_zero_or_pos w with h0 | h0
    · subst h0; simp at hk
    · exact h0
  refine ⟨k / S / w, k / S % w, k % S, ?_, Nat.mod_lt _ hw, Nat.mod_lt _ hS, ?_⟩
  · rw [Nat.div_div_eq_div_mul, Nat.div_lt_iff_lt_mul (by positivity)]
    calc k < h * (w * S) := hk
      _ = h * (S * w) := by ring
  · have h1 := Nat.div_add_mod (k / S) w
    have h2 := Nat.div_add_mod k S
    calc k = S * (k / S) + k % S := h2.symm
      _ = S * (w * (k / S / w) + k / S % w) + k % S := by rw [h1]
      _ = (k / S / w * w + k / S % w) * S + k % S := by ring

theorem inverseRotate_rotated (RawData : List uint8) (W H S x y w h : Nat)
    (hlen : RawData.length = W * H * S) (hxw : x + w ≤ W) (hyh : y + h ≤ H) :
    inverseRotate ((List.range w).flatMap (fun i =>
        (List.range h).flatMap (rotatedPixel RawData W S x y w i))) w h S
      = (List.range h).flatMap (rowBlock RawData W S x y w) := by
  set R := (List.range w).flatMap (fun i =>
        (List.range h).flatMap (rotatedPixel RawData W S x y w i)) with hR
  have hRlen : R.length = w * (h * S) := length_flatMap_range _ (h * S) w
      (fun k hk => length_flatMap_range _ S h
        (fun l hl => length_rotatedPixel RawData W H S x y w h hlen hxw hyh k l hk hl))
  have hpix : ∀ j c, j < h → c < w →
      ((R.drop (((w - 1 - c) * h + j) * S)).take S).length = S := by
    intro j c hj hc
    apply length_take_drop
    have h1 : ((w - 1 - c) * h + j + 1) * S ≤ w * h * S := by
      apply Nat.mul_le_mul_right
      calc (w - 1 - c) * h + j + 1 ≤ (w - 1 - c) * h + h := by omega
        _ = (w - 1 - c + 1) * h := by ring
        _ ≤ w * h := Nat.mul_le_mul_right h (by omega)
    have h2 : ((w - 1 - c) * h + j + 1) * S = ((w - 1 - c) * h + j) * S + S := by ring
    have h3 : w * h * S = w * (h * S) := by ring
    omega
  have hrow : ∀ j, j < h →
      ((List.range w).flatMap (fun c => (R.drop (((w - 1 - c) * h + j) * S)).take S)).length
        = w * S :=
    fun j hj => length_flatMap_range _ S w (fun c hc => hpix j c hj hc)
  have hIlen : (inverseRotate R w h S).length = h * (w * S) :=
    length_flatMap_range _ (w * S) h hrow
  have hUlen : ((List.range h).flatMap (rowBlock RawData W S x y w)).length = h * (w * S) :=
    length_flatMap_range _ (w * S) h
      (fun k hk => length_rowBlock RawData W H S x y w h hlen hxw hyh k hk)
  apply List.ext_getElem?
  intro k
  rcases Nat.lt_or_ge k (h * (w * S)) with hk | hk
  · obtain ⟨j, c, b, hj, hc, hb, rfl⟩ := index_decompose h w S k hk
    have hr : c * S + b < w * S := by
      calc c * S + b < c * S + S := by omega
        _ = (c + 1) * S := by ring
        _ ≤ w * S := Nat.mul_le_mul_right S hc
    have e1 : (j * w + c) * S + b = j * (w * S) + (c * S + b) := by ring
    obtain ⟨v, hv1, hv2⟩ := getElem?_rotated RawData W H S x y w h hlen hxw hyh
      (w - 1 - c) j b (by omega) hj hb
    obtain ⟨v', hv1', hv2'⟩ := getElem?_rows RawData W H S x y w h hlen hxw hyh j c b hj hc hb
    have e2 : (y + j) * W + x + w - (w - 1 - c) - 1 = (y + j) * W + x + c := by omega
    rw [e2, hv2'] at hv2
    rw [hv1']
    unfold inverseRotate
    rw [e1, getElem?_flatMap_range _ (w * S) h hrow j _ hj hr,
      getElem?_flatMap_range _ S w (fun c hc => hpix j c hj hc) c b hc hb,
      getElem?_take_drop _ _ _ _ hb, hv1, hv2]
  · rw [List.getElem?_eq_none (by omega), List.getElem?_eq_none (by omega)]

theorem foldlM_flatMap {α β : Type} (F : β → α → Option β) (g : Nat → List α) (l : List Nat)
    (out : β) :
    (l.flatMap g).foldlM F out = l.foldlM (fun o i => (g i).foldlM F o) out := by
  induction l generalizing out with
  | nil => simp
  | cons a l ih =>
    rw [List.flatMap_cons, List.foldlM_append, List.foldlM_cons]
    cases hres : List.foldlM F out (g a) with
    | none => simp
    | some o => simp [ih]

/-- The function `TrimSprite` is the sequence of reads `TrimSpriteReads`, each appended to
`out`: the list names exactly the ranges the function reads. -/
theorem TrimSprite_eq_foldlM_reads (RawData : List uint8) (Width Height : Int)
    (UV Size : FVector2D) (Span : Int) (bRotated : Bool) (out : List uint8) :
    TrimSprite RawData Width Height UV Size Span bRotated out
      = (TrimSpriteReads Width UV Size Span bRotated).foldlM
          (fun o r => TArray64.Append o RawData r.1 r.2) out := by
  unfold TrimSprite TrimSpriteReads
  cases bRotated
  · simp only [Bool.false_eq_true, if_false, List.foldlM_map]
  · simp only [if_true, foldlM_flatMap, List.foldlM_map]

theorem ExportPNG_fields (E : Engine) (p : String) (d : List uint8) (w h : Int) :
    (ExportPNG E p d w h).TotalFileName = p ∧ (ExportPNG E p d w h).RawData = d
      ∧ (ExportPNG E p d w h).width = w ∧ (ExportPNG E p d w h).height = h := by
  unfold ExportPNG
  split <;> exact ⟨rfl, rfl, rfl, rfl⟩

/-- A loop whose body appends one element `f a` per item and never fails returns the initial
list followed by the images of the items. -/
theorem foldlM_append_singleton {α β : Type} (f : α → β)
    (step : List β → α → Option (List β)) (l : List α)
    (hstep : ∀ calls a, a ∈ l → step calls a = some (calls ++ [f a])) (init : List β) :
    l.foldlM step init = some (init ++ l.map f) := by
  induction l generalizing init with
  | nil => simp
  | cons a l ih =>
    rw [List.foldlM_cons, hstep init a (List.mem_cons_self a l)]
    simp only [Option.bind_eq_bind, Option.some_bind]
    rw [ih (fun calls b hb => hstep calls b (List.mem_cons_of_mem a hb))]
    simp

theorem extractable_sprite (sprite_sheet : UPaperSpriteSheet) (RawData : List uint8)
    (hsrc : sprite_sheet.Texture.Source.MipData = some RawData)
    (hext : Extractable sprite_sheet = true) (sprite : UPaperSprite)
    (hmem : sprite ∈ sprite_sheet.Sprites) :
    ∃ out, TrimSprite RawData sprite_sheet.Texture.Source.SizeX
        sprite_sheet.Texture.Source.SizeY sprite.SourceUV sprite.SourceSize
        sprite_sheet.Texture.Source.BytesPerPixel sprite.bRotatedInSourceImage [] = some out := by
  unfold Extractable at hext
  simp only [hsrc, List.all_eq_true] at hext
  exact Option.isSome_iff_exists.mp (hext sprite hmem)

theorem ExportAtlas_available (E : Engine) (sprite_sheet : UPaperSpriteSheet)
    (exportPath : String) (RawData : List uint8)
    (hsrc : sprite_sheet.Texture.Source.MipData = some RawData)
    (hext : Extractable sprite_sheet = true) :
    ExportAtlas E sprite_sheet exportPath
      = some (true,
          ExportPNG E (E.Combine exportPath sprite_sheet.Texture.FName ++ "/"
              ++ sprite_sheet.TextureName) RawData
              sprite_sheet.Texture.Source.SizeX sprite_sheet.Texture.Source.SizeY
            :: sprite_sheet.Sprites.map (spriteExport E RawData sprite_sheet.Texture
                (E.Combine exportPath sprite_sheet.Texture.FName ++ "/"))) := by
  unfold ExportAtlas
  simp only [hsrc]
  rw [foldlM_append_singleton (spriteExport E RawData sprite_sheet.Texture
    (E.Combine exportPath sprite_sheet.Texture.FName ++ "/"))]
  · rfl
  · intro calls a ha
    obtain ⟨out, hout⟩ := extractable_sprite sprite_sheet RawData hsrc hext a ha
    unfold spriteExport
    simp only [hout, Option.getD_some]
    cases a.bRotatedInSourceImage <;> simp

theorem ExportAtlas_unavailable (E : Engine) (sprite_sheet : UPaperSpriteSheet)
    (exportPath : String) (hsrc : sprite_sheet.Texture.Source.MipData = none) :
    ExportAtlas E sprite_sheet exportPath = some (false, []) := by
  unfold ExportAtlas
  simp only [hsrc]

theorem ExportAtlas_returns (E : Engine) (sprite_sheet : UPaperSpriteSheet)
    (exportPath : String) (hext : Extractable sprite_sheet = true) :
    ∃ r, ExportAtlas E sprite_sheet exportPath = some r := by
  cases hsrc : sprite_sheet.Texture.Source.MipData with
  | none => exact ⟨_, ExportAtlas_unavailable E _ _ hsrc⟩
  | some RawData => exact ⟨_, ExportAtlas_available E _ _ RawData hsrc hext⟩

theorem ExportAtlas_results (E : Engine) (exportPath : String)
    (l : List UPaperSpriteSheet) (hext : ∀ s ∈ l, Extractable s = true) :
    ∃ results : List (Bool × List PNGExport),
      l.map (fun s => ExportAtlas E s exportPath) = results.map some := by
  induction l with
  | nil => exact ⟨[], rfl⟩
  | cons a l ih =>
    obtain ⟨rs, hrs⟩ := ih (fun s hs => hext s (List.mem_cons_of_mem a hs))
    obtain ⟨r, hr⟩ := ExportAtlas_returns E a exportPath (hext a (List.mem_cons_self a l))
    exact ⟨r :: rs, by simp [hr, hrs]⟩

theorem ExportAllAtlas_foldlM (E : Engine) (exportPath : String)
    (l : List UPaperSpriteSheet) (results : List (Bool × List PNGExport))
    (hres : l.map (fun s => ExportAtlas E s exportPath) = results.map some)
    (acc : Bool × List PNGExport) :
    l.foldlM (fun acc asset =>
        match ExportAtlas E asset exportPath with
        | none => none
        | some r => some (acc.1 && r.1, acc.2 ++ r.2)) acc
      = some (acc.1 && results.all (fun r => r.1), acc.2 ++ results.flatMap (fun r => r.2)) := by
  induction l generalizing acc results with
  | nil =>
    cases results with
    | nil => simp
    | cons r rs => simp at hres
  | cons a l ih =>
    cases results with
    | nil => simp at hres
    | cons r rs =>
      simp only [List.map_cons, List.cons.injEq] at hres
      rw [List.foldlM_cons, hres.1]
      simp only [Option.bind_eq_bind, Option.some_bind]
      rw [ih rs hres.2]
      simp [Bool.and_assoc]

/-- Inside the atlas and below the `int32` limit, `TrimSprite` has a result in both modes. -/
theorem TrimSprite_some_of_valid (RawData : List uint8) (Width Height x y w h Span : Int)
    (bRotated : Bool) (hv : ValidRegion RawData Width Height x y w h Span)
    (hfit : Width * Height * Span ≤ 2147483647) :
    ∃ out, TrimSprite RawData Width Height ⟨x, y⟩ ⟨w, h⟩ Span bRotated [] = some out := by
  obtain ⟨W, H, S, x, y, w, h, rfl, rfl, rfl, rfl, rfl, rfl, rfl, hlen, hS, hxw, hyh⟩ := hv.toNat
  have hfit' : W * H * S ≤ 2147483647 := by exact_mod_cast hfit
  cases bRotated
  · exact ⟨_, TrimSprite_unrotated_eq RawData W H S x y w h hlen hS hxw hyh hfit' []⟩
  · exact ⟨_, TrimSprite_rotated_eq RawData W H S x y w h hlen hS hxw hyh hfit' []⟩

/-- A sheet whose sprite regions all lie inside the atlas, with a buffer below the `int32`
limit, is extractable. -/
theorem extractable_of_valid (sprite_sheet : UPaperSpriteSheet)
    (hfit : sprite_sheet.Texture.Source.SizeX * sprite_sheet.Texture.Source.SizeY
      * sprite_sheet.Texture.Source.BytesPerPixel ≤ 2147483647)
    (hv : ∀ RawData, sprite_sheet.Texture.Source.MipData = some RawData →
      ∀ sprite ∈ sprite_sheet.Sprites,
        ValidRegion RawData sprite_sheet.Texture.Source.SizeX sprite_sheet.Texture.Source.SizeY
          sprite.SourceUV.X sprite.SourceUV.Y sprite.SourceSize.X sprite.SourceSize.Y
          sprite_sheet.Texture.Source.BytesPerPixel) :
    Extractable sprite_sheet = true := by
  unfold Extractable
  cases hsrc : sprite_sheet.Texture.Source.MipData with
  | none => rfl
  | some RawData =>
    simp only [List.all_eq_true]
    intro sprite hmem
    obtain ⟨out, hout⟩ := TrimSprite_some_of_valid RawData _ _ _ _ _ _ _
      sprite.bRotatedInSourceImage (hv RawData hsrc sprite hmem) hfit
    exact Option.isSome_iff_exists.mpr ⟨out, hout⟩

theorem validRegion_atlas4x2 : ValidRegion atlas4x2 4 2 1 0 2 2 1 := by
  unfold ValidRegion atlas4x2; decide

theorem validRegion_hugeAtlas : ValidRegion hugeAtlas 32768 32768 0 16384 1 1 4 := by
  unfold ValidRegion hugeAtlas
  rw [List.length_replicate]
  decide


/-! ## The extraction of a region (`TrimSprite`) -/

/-- Claim C1, as amended: for every atlas buffer of length `Width*Height*Span` with `Span > 0`
and `Width*Height*Span` at most 2147483647, and every region inside the atlas, `TrimSprite` with
`bRotated = false` on an empty `out` produces a buffer whose byte `(i*w + c)*Span + b` equals
the atlas byte `((y + i)*Width + x + c)*Span + b` for every `i < h`, `c < w`, `b < Span`. -/
theorem unrotated_extract_subrect (RawData : List uint8) (Width Height x y w h Span : Int)
    (hv : ValidRegion RawData Width Height x y w h Span)
    (hfit : Width * Height * Span ≤ 2147483647) :
    UnrotatedSubrect RawData Width Height x y w h Span := by
  obtain ⟨W, H, S, x, y, w, h, rfl, rfl, rfl, rfl, rfl, rfl, rfl, hlen, hS, hxw, hyh⟩ := hv.toNat
  have hfit' : W * H * S ≤ 2147483647 := by exact_mod_cast hfit
  refine ⟨_, TrimSprite_unrotated_eq RawData W H S x y w h hlen hS hxw hyh hfit' [], ?_⟩
  intro i c b hi hc hb
  have e1 : (((i : Int) * w + c) * S + b) = (((i * w + c) * S + b : Nat) : Int) := by
    push_cast; ring
  have e2 : ((((y : Int) + i) * W + x + c) * S + b)
      = ((((y + i) * W + x + c) * S + b : Nat) : Int) := by push_cast; ring
  rw [e1, e2, Int.toNat_ofNat, Int.toNat_ofNat, List.nil_append]
  exact getElem?_rows RawData W H S x y w h hlen hxw hyh i c b
    (by exact_mod_cast hi) (by exact_mod_cast hc) (by exact_mod_cast hb)

/-- Claim C1, the scenario of the specification: atlas 4 by 2, `Span` 1, origin `(1, 0)`, size
`(2, 2)` gives `[2, 3, 6, 7]`. -/
theorem unrotated_extract_subrect_witness :
    ValidRegion atlas4x2 4 2 1 0 2 2 1
      ∧ TrimSprite atlas4x2 4 2 ⟨1, 0⟩ ⟨2, 2⟩ 1 false [] = some [2, 3, 6, 7]
      ∧ UnrotatedSubrect atlas4x2 4 2 1 0 2 2 1 :=
  ⟨validRegion_atlas4x2, by decide,
    unrotated_extract_subrect atlas4x2 4 2 1 0 2 2 1 validRegion_atlas4x2 (by decide)⟩

/-- Claim C1 as stated fails: in a 32768 by 32768 atlas of four bytes per pixel the region of
one pixel at `(0, 16384)` is inside the atlas, yet the `int32` offset `(y*Width + x)*Span`
is `2^31`, wraps to `-2^31`, and the read leaves the buffer. -/
theorem unrotated_extract_overflows :
    ValidRegion hugeAtlas 32768 32768 0 16384 1 1 4
      ∧ TrimSprite hugeAtlas 32768 32768 ⟨0, 16384⟩ ⟨1, 1⟩ 4 false [] = none
      ∧ ¬ UnrotatedSubrect hugeAtlas 32768 32768 0 16384 1 1 4 := by
  have hnone : TrimSprite hugeAtlas 32768 32768 ⟨0, 16384⟩ ⟨1, 1⟩ 4 false [] = none := by decide
  refine ⟨validRegion_hugeAtlas, hnone, ?_⟩
  rintro ⟨out, hout, -⟩
  rw [hnone] at hout
  exact Option.noConfusion hout

/-- Claim C2, as amended: for every atlas buffer of length `Width*Height*Span` with `Span > 0`
and `Width*Height*Span` at most 2147483647, and every region inside the atlas, `TrimSprite` with
`bRotated = true` on an empty `out` produces a buffer whose pixel `i*h + j` equals the atlas
pixel at row `y + j`, column `x + w - i - 1`, byte by byte, for every `i < w` and `j < h`. -/
theorem rotated_extract_column_reversal (RawData : List uint8)
    (Width Height x y w h Span : Int)
    (hv : ValidRegion RawData Width Height x y w h Span)
    (hfit : Width * Height * Span ≤ 2147483647) :
    RotatedColumnReversal RawData Width Height x y w h Span := by
  obtain ⟨W, H, S, x, y, w, h, rfl, rfl, rfl, rfl, rfl, rfl, rfl, hlen, hS, hxw, hyh⟩ := hv.toNat
  have hfit' : W * H * S ≤ 2147483647 := by exact_mod_cast hfit
  refine ⟨_, TrimSprite_rotated_eq RawData W H S x y w h hlen hS hxw hyh hfit' [], ?_⟩
  intro i j b hi hj hb
  have hi' : i < w := by exact_mod_cast hi
  have e1 : (((i : Int) * h + j) * S + b) = (((i * h + j) * S + b : Nat) : Int) := by
    push_cast; ring
  have e3 : (((y : Int) + j) * W + x + w - i - 1)
      = (((y + j) * W + x + w - i - 1 : Nat) : Int) := by
    have : i + 1 ≤ (y + j) * W + x + w := by omega
    rw [Nat.sub_sub, Nat.cast_sub this]; push_cast; ring
  have e2 : ((((y : Int) + j) * W + x + w - i - 1) * S + b)
      = ((((y + j) * W + x + w - i - 1) * S + b : Nat) : Int) := by
    rw [e3]; push_cast; ring
  rw [e1, e2, Int.toNat_ofNat, Int.toNat_ofNat, List.nil_append]
  exact getElem?_rotated RawData W H S x y w h hlen hxw hyh i j b
    hi' (by exact_mod_cast hj) (by exact_mod_cast hb)

/-- Claim C2, the scenario of the specification: atlas 4 by 2, `Span` 1, origin `(1, 0)`, size
`(2, 2)`, rotated, gives `[3, 7, 2, 6]`. -/
theorem rotated_extract_column_reversal_witness :
    ValidRegion atlas4x2 4 2 1 0 2 2 1
      ∧ TrimSprite atlas4x2 4 2 ⟨1, 0⟩ ⟨2, 2⟩ 1 true [] = some [3, 7, 2, 6]
      ∧ RotatedColumnReversal atlas4x2 4 2 1 0 2 2 1 :=
  ⟨validRegion_atlas4x2, by decide,
    rotated_extract_column_reversal atlas4x2 4 2 1 0 2 2 1 validRegion_atlas4x2 (by decide)⟩

/-- Claim C2 as stated fails: in the 32768 by 32768 atlas of four bytes per pixel the rotated
read of the one-pixel region at `(0, 16384)` computes the `int32` offset
`Span*(y*Width + x + w - 1) = 2^31`, which wraps to `-2^31`. -/
theorem rotated_extract_overflows :
    ValidRegion hugeAtlas 32768 32768 0 16384 1 1 4
      ∧ TrimSprite hugeAtlas 32768 32768 ⟨0, 16384⟩ ⟨1, 1⟩ 4 true [] = none
      ∧ ¬ RotatedColumnReversal hugeAtlas 32768 32768 0 16384 1 1 4 := by
  have hnone : TrimSprite hugeAtlas 32768 32768 ⟨0, 16384⟩ ⟨1, 1⟩ 4 true [] = none := by decide
  refine ⟨validRegion_hugeAtlas, hnone, ?_⟩
  rintro ⟨out, hout, -⟩
  rw [hnone] at hout
  exact Option.noConfusion hout

/-- Claim C3, as amended: for every region inside an atlas with `Span > 0` and
`Width*Height*Span` at most 2147483647, the inverse transform of the rotated extraction (pixel
`(w - 1 - c)*h + j` placed at row `j`, column `c`) is the unrotated extraction of the region. -/
theorem rotated_round_trip (RawData : List uint8) (Width Height x y w h Span : Int)
    (hv : ValidRegion RawData Width Height x y w h Span)
    (hfit : Width * Height * Span ≤ 2147483647) :
    RotatedRoundTrip RawData Width Height x y w h Span := by
  obtain ⟨W, H, S, x, y, w, h, rfl, rfl, rfl, rfl, rfl, rfl, rfl, hlen, hS, hxw, hyh⟩ := hv.toNat
  have hfit' : W * H * S ≤ 2147483647 := by exact_mod_cast hfit
  refine ⟨_, _, TrimSprite_rotated_eq RawData W H S x y w h hlen hS hxw hyh hfit' [],
    TrimSprite_unrotated_eq RawData W H S x y w h hlen hS hxw hyh hfit' [], ?_⟩
  simp only [Int.toNat_ofNat, List.nil_append]
  exact inverseRotate_rotated RawData W H S x y w h hlen hxw hyh

/-- Claim C3 on the 4 by 2 atlas: region `(1, 0)` of size `(2, 1)`, where the rotated
extraction is `[3, 2]` and its inverse transform `[2, 3]`. -/
theorem rotated_round_trip_witness :
    ValidRegion atlas4x2 4 2 1 0 2 1 1
      ∧ TrimSprite atlas4x2 4 2 ⟨1, 0⟩ ⟨2, 1⟩ 1 true [] = some [3, 2]
      ∧ inverseRotate [3, 2] 2 1 1 = [2, 3]
      ∧ RotatedRoundTrip atlas4x2 4 2 1 0 2 1 1 :=
  ⟨by unfold ValidRegion atlas4x2; decide, by decide, by decide,
    rotated_round_trip atlas4x2 4 2 1 0 2 1 1 (by unfold ValidRegion atlas4x2; decide)
      (by decide)⟩

/-- Claim C3 as stated fails: in the 32768 by 32768 atlas of four bytes per pixel the rotated
extraction of the one-pixel region at `(0, 16384)` has no result, so there is nothing to
transform back. -/
theorem rotated_round_trip_overflows :
    ValidRegion hugeAtlas 32768 32768 0 16384 1 1 4
      ∧ ¬ RotatedRoundTrip hugeAtlas 32768 32768 0 16384 1 1 4 := by
  refine ⟨validRegion_hugeAtlas, ?_⟩
  rintro ⟨R, U, hR, -, -⟩
  have hnone : TrimSprite hugeAtlas 32768 32768 ⟨0, 16384⟩ ⟨1, 1⟩ 4 true [] = none := by decide
  rw [hnone] at hR
  exact Option.noConfusion hR

/-- Claim C4, as amended: for every region of size `(w, h)` inside an atlas with `Span > 0` and
`Width*Height*Span` at most 2147483647, and both values of `bRotated`, the buffer `TrimSprite`
produces from an empty `out` has exactly `w*h*Span` bytes. -/
theorem extract_length (RawData : List uint8) (Width Height x y w h Span : Int)
    (hv : ValidRegion RawData Width Height x y w h Span)
    (hfit : Width * Height * Span ≤ 2147483647) :
    ExtractedLength RawData Width Height x y w h Span := by
  obtain ⟨W, H, S, x, y, w, h, rfl, rfl, rfl, rfl, rfl, rfl, rfl, hlen, hS, hxw, hyh⟩ := hv.toNat
  have hfit' : W * H * S ≤ 2147483647 := by exact_mod_cast hfit
  intro bRotated
  cases bRotated
  · refine ⟨_, TrimSprite_unrotated_eq RawData W H S x y w h hlen hS hxw hyh hfit' [], ?_⟩
    rw [List.nil_append, length_flatMap_range _ (w * S) h
      (fun k hk => length_rowBlock RawData W H S x y w h hlen hxw hyh k hk)]
    push_cast; ring
  · refine ⟨_, TrimSprite_rotated_eq RawData W H S x y w h hlen hS hxw hyh hfit' [], ?_⟩
    rw [List.nil_append, length_flatMap_range _ (h * S) w
      (fun k hk => length_flatMap_range _ S h
        (fun l hl => length_rotatedPixel RawData W H S x y w h hlen hxw hyh k l hk hl))]
    push_cast; ring

/-- Claim C4 on the 4 by 2 atlas with two bytes per pixel: the region `(1, 0)` of size `(1, 1)`
gives two bytes in both modes. -/
theorem extract_length_witness :
    ValidRegion atlas4x2 2 2 1 0 1 1 2
      ∧ TrimSprite atlas4x2 2 2 ⟨1, 0⟩ ⟨1, 1⟩ 2 true [] = some [3, 4]
      ∧ ExtractedLength atlas4x2 2 2 1 0 1 1 2 :=
  ⟨by unfold ValidRegion atlas4x2; decide, by decide,
    extract_length atlas4x2 2 2 1 0 1 1 2 (by unfold ValidRegion atlas4x2; decide) (by decide)⟩

/-- Claim C4 as stated fails: in the 32768 by 32768 atlas of four bytes per pixel the
extraction of the one-pixel region at `(0, 16384)` produces no buffer of four bytes, in
either mode. -/
theorem extract_length_overflows :
    ValidRegion hugeAtlas 32768 32768 0 16384 1 1 4
      ∧ (∀ bRotated : Bool,
          TrimSprite hugeAtlas 32768 32768 ⟨0, 16384⟩ ⟨1, 1⟩ 4 bRotated [] = none)
      ∧ ¬ ExtractedLength hugeAtlas 32768 32768 0 16384 1 1 4 := by
  have hnone : ∀ bRotated : Bool,
      TrimSprite hugeAtlas 32768 32768 ⟨0, 16384⟩ ⟨1, 1⟩ 4 bRotated [] = none := by decide
  refine ⟨validRegion_hugeAtlas, hnone, ?_⟩
  intro hclaim
  obtain ⟨out, hout, -⟩ := hclaim false
  rw [hnone false] at hout
  exact Option.noConfusion hout

/-- Claim C10, as amended: for every atlas buffer of length `Width*Height*Span` with `Span > 0`
and `Width*Height*Span` at most 2147483647, and every region inside the atlas, the byte ranges
`TrimSprite` reads are those the specification names, each lies in `[0, Width*Height*Span)`,
and the bounds-checked `TrimSprite` never takes its failing branch. -/
theorem reads_within_atlas (RawData : List uint8) (Width Height x y w h Span : Int)
    (hv : ValidRegion RawData Width Height x y w h Span)
    (hfit : Width * Height * Span ≤ 2147483647) :
    ReadsInBounds RawData Width Height x y w h Span := by
  obtain ⟨W, H, S, x, y, w, h, rfl, rfl, rfl, rfl, rfl, rfl, rfl, hlen, hS, hxw, hyh⟩ := hv.toNat
  have hfit' : W * H * S ≤ 2147483647 := by exact_mod_cast hfit
  have hun : TrimSpriteReads (W : Int) ⟨x, y⟩ ⟨w, h⟩ S false
      = (List.range (h : Int).toNat).map
          (fun (i : Nat) => ((((y : Int) + i) * W + x) * S, (w : Int) * S)) := by
    unfold TrimSpriteReads
    simp only [Bool.false_eq_true, if_false, Int.toNat_ofNat]
    apply List.map_congr_left
    intro i hi
    obtain ⟨e1, e2, -⟩ := unrotated_offset W H S x y w h i hS hxw hyh hfit'
      (List.mem_range.mp hi)
    rw [e1, e2]; push_cast; rfl
  have hro : TrimSpriteReads (W : Int) ⟨x, y⟩ ⟨w, h⟩ S true
      = (List.range (w : Int).toNat).flatMap (fun (i : Nat) =>
          (List.range (h : Int).toNat).map (fun (j : Nat) =>
            ((S : Int) * (((y : Int) + j) * W + x + w - i - 1), (S : Int)))) := by
    unfold TrimSpriteReads
    simp only [if_true, Int.toNat_ofNat]
    apply List.flatMap_congr
    intro i hi
    apply List.map_congr_left
    intro j hj
    have hi' := List.mem_range.mp hi
    obtain ⟨e1, -⟩ := rotated_offset W H S x y w h i j hS hxw hyh hfit' hi'
      (List.mem_range.mp hj)
    have : i + 1 ≤ (y + j) * W + x + w := by omega
    rw [e1, Nat.sub_sub, Nat.cast_mul, Nat.cast_sub this]; push_cast; ring_nf
  refine ⟨hun, hro, ?_⟩
  intro bRotated
  cases bRotated
  · refine ⟨?_, ?_⟩
    · intro r hr
      rw [hun, Int.toNat_ofNat] at hr
      obtain ⟨i, hi, rfl⟩ := List.mem_map.mp hr
      obtain ⟨-, -, hb⟩ := unrotated_offset W H S x y w h i hS hxw hyh hfit'
        (List.mem_range.mp hi)
      have hb' : (((((y + i) * W + x) * S + w * S : Nat)) : Int) ≤ ((W * H * S : Nat) : Int) := by
        exact_mod_cast hb
      push_cast at hb'
      exact ⟨by positivity, by positivity, hb'⟩
    · rw [TrimSprite_unrotated_eq RawData W H S x y w h hlen hS hxw hyh hfit' []]
      exact Option.some_ne_none _
  · refine ⟨?_, ?_⟩
    · intro r hr
      unfold TrimSpriteReads at hr
      simp only [if_true, Int.toNat_ofNat] at hr
      obtain ⟨i, hi, hr⟩ := List.mem_flatMap.mp hr
      obtain ⟨j, hj, rfl⟩ := List.mem_map.mp hr
      obtain ⟨e1, hb⟩ := rotated_offset W H S x y w h i j hS hxw hyh hfit'
        (List.mem_range.mp hi) (List.mem_range.mp hj)
      have hb' : ((S * ((y + j) * W + x + w - i - 1) + S : Nat) : Int)
          ≤ ((W * H * S : Nat) : Int) := by exact_mod_cast hb
      simp only [e1]
      refine ⟨Int.natCast_nonneg _, Int.natCast_nonneg _, ?_⟩
      rw [Nat.cast_add] at hb'
      rw [← Nat.cast_mul, ← Nat.cast_mul]
      exact hb'
    · rw [TrimSprite_rotated_eq RawData W H S x y w h hlen hS hxw hyh hfit' []]
      exact Option.some_ne_none _

/-- Claim C10 on the 4 by 2 atlas: the reads of the region `(1, 0)` of size `(2, 2)` are
`[1, 3)` and `[5, 7)` unrotated, and the pixels 2, 6, 1, 5 rotated. -/
theorem reads_within_atlas_witness :
    ValidRegion atlas4x2 4 2 1 0 2 2 1
      ∧ TrimSpriteReads 4 ⟨1, 0⟩ ⟨2, 2⟩ 1 false = [(1, 2), (5, 2)]
      ∧ TrimSpriteReads 4 ⟨1, 0⟩ ⟨2, 2⟩ 1 true = [(2, 1), (6, 1), (1, 1), (5, 1)]
      ∧ ReadsInBounds atlas4x2 4 2 1 0 2 2 1 :=
  ⟨validRegion_atlas4x2, by decide, by decide,
    reads_within_atlas atlas4x2 4 2 1 0 2 2 1 validRegion_atlas4x2 (by decide)⟩

/-- Claim C10 as stated fails: in the 32768 by 32768 atlas of four bytes per pixel the only
read of the one-pixel region at `(0, 16384)` starts at the wrapped offset `-2^31`, outside
`[0, Width*Height*Span)`, in both modes. -/
theorem reads_leave_huge_atlas :
    ValidRegion hugeAtlas 32768 32768 0 16384 1 1 4
      ∧ TrimSpriteReads 32768 ⟨0, 16384⟩ ⟨1, 1⟩ 4 false = [(-2147483648, 4)]
      ∧ TrimSpriteReads 32768 ⟨0, 16384⟩ ⟨1, 1⟩ 4 true = [(-2147483648, 4)]
      ∧ ¬ ReadsInBounds hugeAtlas 32768 32768 0 16384 1 1 4 := by
  have hreads : TrimSpriteReads 32768 ⟨0, 16384⟩ ⟨1, 1⟩ 4 false = [(-2147483648, 4)] := by
    decide
  refine ⟨validRegion_hugeAtlas, hreads, by decide, ?_⟩
  rintro ⟨-, -, hall⟩
  have h := (hall false).1 (-2147483648, 4) (by rw [hreads]; exact List.mem_singleton.mpr rfl)
  exact absurd h.1 (by decide)

/-! ## The export of an atlas (`ExportAtlas`, `ExportAllAtlas`) -/

/-- Claim C5, as amended: for every sprite (number `k`) of an atlas whose source is available
and none of whose sprites makes `TrimSprite` read outside the atlas buffer, `ExportAtlas`
returns, and its `ExportPNG` call number `k + 1` (call 0 is the atlas image) receives the
buffer `TrimSprite` extracted for that sprite, with declared `(width, height) = (w, h)` when
the sprite is not rotated and `(h, w)` when it is, `(w, h)` being the sprite's source size. -/
theorem declared_size_swapped_when_rotated (E : Engine) (sprite_sheet : UPaperSpriteSheet)
    (exportPath : String) (RawData : List uint8) (k : Nat) (sprite : UPaperSprite)
    (hsrc : sprite_sheet.Texture.Source.MipData = some RawData)
    (hext : Extractable sprite_sheet = true)
    (hk : sprite_sheet.Sprites[k]? = some sprite) :
    HandsOverSprite E sprite_sheet exportPath RawData k sprite := by
  obtain ⟨out, hout⟩ := extractable_sprite sprite_sheet RawData hsrc hext sprite
    (List.mem_iff_getElem?.mpr ⟨k, hk⟩)
  refine ⟨true, _, spriteExport E RawData sprite_sheet.Texture
    (E.Combine exportPath sprite_sheet.Texture.FName ++ "/") sprite,
    ExportAtlas_available E _ _ RawData hsrc hext, ?_, ?_, ?_, ?_⟩
  · simp [List.getElem?_map, hk]
  · unfold spriteExport
    rw [(ExportPNG_fields _ _ _ _ _).2.1, hout]
    rfl
  · intro hrot
    unfold spriteExport
    rw [hrot]
    exact ⟨(ExportPNG_fields _ _ _ _ _).2.2.1, (ExportPNG_fields _ _ _ _ _).2.2.2⟩
  · intro hrot
    unfold spriteExport
    rw [hrot]
    exact ⟨(ExportPNG_fields _ _ _ _ _).2.2.1, (ExportPNG_fields _ _ _ _ _).2.2.2⟩

/-- Claim C5 on the sample sheet: its first sprite has size `(2, 1)` and is rotated, its
buffer is `[3, 2]`, and it is declared as `(1, 2)`. -/
theorem declared_size_swapped_when_rotated_witness :
    (ExportAtlas sampleEngine (sampleSheet (some atlas4x2) "T") "Saved").map
        (fun r => r.2.map (fun c => (c.RawData, c.width, c.height)))
        = some [(atlas4x2, 4, 2), ([3, 2], 1, 2), ([2, 3], 2, 1)]
      ∧ HandsOverSprite sampleEngine (sampleSheet (some atlas4x2) "T") "Saved" atlas4x2 0
          { SourceUV := ⟨1, 0⟩, SourceSize := ⟨2, 1⟩, bRotatedInSourceImage := true,
            FName := "a" } :=
  ⟨by decide,
    declared_size_swapped_when_rotated sampleEngine (sampleSheet (some atlas4x2) "T") "Saved"
      atlas4x2 0
      { SourceUV := ⟨1, 0⟩, SourceSize := ⟨2, 1⟩, bRotatedInSourceImage := true, FName := "a" }
      rfl (by decide) rfl⟩

/-- Claim C5 as stated fails: the sheet on the 32768 by 32768 atlas of four bytes per pixel has
an available source and its first sprite, one pixel at `(0, 16384)`, lies inside the atlas; the
read of `TrimSprite` for it starts at the wrapped offset `-2^31`, the run ends there, and no
`ExportPNG` call is made for that sprite. -/
theorem declared_size_no_call_on_huge_atlas :
    hugeSheet.Texture.Source.MipData = some hugeAtlas
      ∧ hugeSheet.Sprites[0]? = some hugeSprite
      ∧ ValidRegion hugeAtlas 32768 32768 0 16384 1 1 4
      ∧ ExportAtlas sampleEngine hugeSheet "Saved" = none
      ∧ ¬ HandsOverSprite sampleEngine hugeSheet "Saved" hugeAtlas 0 hugeSprite := by
  have hnone : ExportAtlas sampleEngine hugeSheet "Saved" = none := by decide
  refine ⟨rfl, rfl, validRegion_hugeAtlas, hnone, ?_⟩
  rintro ⟨b, calls, r, hrun, -⟩
  rw [hnone] at hrun
  exact Option.noConfusion hrun

/-- Claim C6, as amended: when `ExportAtlas` returns true, the atlas source was available.
(The outcome of the encode and write steps does not follow: `ExportPNG` returns nothing.) -/
theorem ExportAtlas_true_only_if_source_available (E : Engine)
    (sprite_sheet : UPaperSpriteSheet) (exportPath : String) (calls : List PNGExport)
    (hrun : ExportAtlas E sprite_sheet exportPath = some (true, calls)) :
    ∃ RawData, sprite_sheet.Texture.Source.MipData = some RawData := by
  cases hsrc : sprite_sheet.Texture.Source.MipData with
  | none =>
    rw [ExportAtlas_unavailable E _ _ hsrc] at hrun
    simp at hrun
  | some RawData => exact ⟨RawData, rfl⟩

/-- Claim C6 on the sheet without sprites, whose export returns true with one call. -/
theorem ExportAtlas_true_only_if_source_available_witness :
    ExportAtlas sampleEngine emptySheet "Saved"
        = some (true, [ExportPNG sampleEngine "Saved/T/T.png" atlas4x2 4 2])
      ∧ ∃ RawData, emptySheet.Texture.Source.MipData = some RawData :=
  ⟨by decide,
    ExportAtlas_true_only_if_source_available sampleEngine emptySheet "Saved"
      [ExportPNG sampleEngine "Saved/T/T.png" atlas4x2 4 2] (by decide)⟩

/-- Claim C6 as stated fails: with the destination `Saved/Atl?ses`, which path validation
rejects, the only `ExportPNG` call of the sheet without sprites returns at the warning, and
`ExportAtlas` still returns true. -/
theorem ExportAtlas_true_despite_invalid_path :
    (ExportAtlas sampleEngine emptySheet "Saved/Atl?ses").map
        (fun r => (r.1, r.2.map (fun c => c.outcome))) = some (true, [PNGOutcome.InvalidPath])
      ∧ ¬ SuccessOnlyIfAllSucceeded sampleEngine emptySheet "Saved/Atl?ses" := by
  refine ⟨by decide, ?_⟩
  intro hclaim
  have h := (hclaim [ExportPNG sampleEngine "Saved/Atl?ses/T/T.png" atlas4x2 4 2]
    (by decide)).2 (ExportPNG sampleEngine "Saved/Atl?ses/T/T.png" atlas4x2 4 2)
    (List.mem_singleton.mpr rfl)
  exact absurd h (by decide)

/-- Claim C7: for every atlas whose base-level pixel data cannot be loaded, `ExportAtlas`
returns false and makes no `ExportPNG` call at all, whatever its list of sprites. -/
theorem ExportAtlas_source_unavailable_aborts (E : Engine) (sprite_sheet : UPaperSpriteSheet)
    (exportPath : String) (hsrc : sprite_sheet.Texture.Source.MipData = none) :
    ExportAtlas E sprite_sheet exportPath = some (false, []) := by
  unfold ExportAtlas
  simp only [hsrc]

/-- Claim C7 on the sample sheet with two sprites and no source. -/
theorem ExportAtlas_source_unavailable_aborts_witness :
    (sampleSheet none "T").Sprites.length = 2
      ∧ ExportAtlas sampleEngine (sampleSheet none "T") "Saved" = some (false, []) :=
  ⟨rfl, ExportAtlas_source_unavailable_aborts sampleEngine (sampleSheet none "T") "Saved" rfl⟩

/-- Claim C8, as amended: for every sequence of atlases in which no sprite makes `TrimSprite`
read outside its atlas buffer, `ExportAtlas` returns on each atlas, the `ExportPNG` calls of
`ExportAllAtlas` are those of `ExportAtlas` on each atlas, in order, whether or not an earlier
atlas returned false, and `ExportAllAtlas` returns true if and only if `ExportAtlas` returned
true on every atlas. -/
theorem ExportAllAtlas_non_short_circuit_and (E : Engine)
    (sprite_sheets : List UPaperSpriteSheet) (exportPath : String)
    (hext : ∀ s ∈ sprite_sheets, Extractable s = true) :
    NonShortCircuitAnd E sprite_sheets exportPath := by
  obtain ⟨results, hres⟩ := ExportAtlas_results E exportPath sprite_sheets hext
  refine ⟨results, hres, results.all (fun r => r.1), ?_, ?_⟩
  · unfold ExportAllAtlas
    rw [ExportAllAtlas_foldlM E exportPath sprite_sheets results hres]
    simp
  · simp

/-- Claim C8 on three atlases of which the second has no source: the result is false and the
calls are those of the first atlas followed by those of the third. -/
theorem ExportAllAtlas_non_short_circuit_and_witness :
    (ExportAllAtlas sampleEngine
        [sampleSheet (some atlas4x2) "A", sampleSheet none "B", sampleSheet (some atlas4x2) "C"]
        "Saved").map (fun r => (r.1, r.2.map (fun c => c.TotalFileName)))
        = some (false, ["Saved/A/A.png", "Saved/A/a.png", "Saved/A/b.png",
                        "Saved/C/C.png", "Saved/C/a.png", "Saved/C/b.png"])
      ∧ NonShortCircuitAnd sampleEngine
        [sampleSheet (some atlas4x2) "A", sampleSheet none "B", sampleSheet (some atlas4x2) "C"]
        "Saved" :=
  ⟨by decide,
    ExportAllAtlas_non_short_circuit_and sampleEngine
      [sampleSheet (some atlas4x2) "A", sampleSheet none "B", sampleSheet (some atlas4x2) "C"]
      "Saved" (by decide)⟩

/-- Claim C8 as stated fails: on the sheet of the 32768 by 32768 atlas followed by the sheet
without sprites, the first `ExportAtlas` call ends at the read at offset `-2^31` of its first
sprite, which lies inside the atlas; it does not return, the second atlas is never exported,
and `ExportAllAtlas` returns nothing. -/
theorem ExportAllAtlas_stops_on_huge_atlas :
    ValidRegion hugeAtlas 32768 32768 0 16384 1 1 4
      ∧ ExportAtlas sampleEngine hugeSheet "Saved" = none
      ∧ ExportAllAtlas sampleEngine [hugeSheet, emptySheet] "Saved" = none
      ∧ ¬ NonShortCircuitAnd sampleEngine [hugeSheet, emptySheet] "Saved" := by
  have hnone : ExportAllAtlas sampleEngine [hugeSheet, emptySheet] "Saved" = none := by decide
  refine ⟨validRegion_hugeAtlas, by decide, hnone, ?_⟩
  rintro ⟨results, -, b, hb, -⟩
  rw [hnone] at hb
  exact Option.noConfusion hb

/-- Claim C9: for every atlas whose source is available and whose sprite list is empty,
`ExportAtlas` makes exactly one `ExportPNG` call, with the full atlas buffer, the atlas's own
width and height, and a file name under the atlas's destination directory, and returns true. -/
theorem ExportAtlas_zero_regions (E : Engine) (sprite_sheet : UPaperSpriteSheet)
    (exportPath : String) (RawData : List uint8)
    (hsrc : sprite_sheet.Texture.Source.MipData = some RawData)
    (hempty : sprite_sheet.Sprites = []) :
    ∃ r, ExportAtlas E sprite_sheet exportPath = some (true, [r])
      ∧ r.RawData = RawData
      ∧ r.width = sprite_sheet.Texture.Source.SizeX
      ∧ r.height = sprite_sheet.Texture.Source.SizeY
      ∧ r.TotalFileName
          = (E.Combine exportPath sprite_sheet.Texture.FName ++ "/")
              ++ sprite_sheet.TextureName := by
  have hext : Extractable sprite_sheet = true := by
    unfold Extractable
    simp [hsrc, hempty]
  rw [ExportAtlas_available E _ _ RawData hsrc hext, hempty]
  exact ⟨_, rfl, (ExportPNG_fields _ _ _ _ _).2.1, (ExportPNG_fields _ _ _ _ _).2.2.1,
    (ExportPNG_fields _ _ _ _ _).2.2.2, (ExportPNG_fields _ _ _ _ _).1⟩

/-- Claim C9 on the sheet without sprites: one call, for `Saved/T/T.png`, 4 by 2. -/
theorem ExportAtlas_zero_regions_witness :
    ∃ r, ExportAtlas sampleEngine emptySheet "Saved" = some (true, [r])
      ∧ r.RawData = atlas4x2 ∧ r.width = 4 ∧ r.height = 2
      ∧ r.TotalFileName = (sampleEngine.Combine "Saved" "T" ++ "/") ++ "T.png" :=
  ExportAtlas_zero_regions sampleEngine emptySheet "Saved" atlas4x2 rfl rfl

end SpriteSheetExporter
